import Mathlib

/-!
Verification development for the `measurements` C++ library
(dimensional-analysis quantities: dimension vectors, prefixes, units,
plain and uncertain measurements).

Shallow embedding conventions, used uniformly below:

* `scalar` (`double` in the source) is idealised as the exact rationals `ℚ`;
  IEEE rounding is out of scope.  The two places where the source produces
  non-rational values (`std::sqrt`, `std::sin`) return real numbers `ℝ`.
* The signaling-NaN sentinel returned by `unit::convertion_factor` for
  incompatible dimensions is modelled by `Option`: `none` is the NaN.  Every
  numeric comparison against `none` is `false`, matching IEEE comparisons
  with NaN.
* A C++ function that can `throw` is modelled with `Except String`; the
  string is the exception message.
* The exponents of `unit_base` are stored in narrow signed bit-fields; an
  assignment truncates to the field's width in two's complement (gcc/clang
  semantics).  `wrap w x` is that truncation, and the constructor `mk'`
  applies it to every field, exactly as the C++ constructor does.
-/

namespace measurements

namespace units

/-- Scalar numeric type of the library (`scalar` = `double` in the source),
idealised as exact rationals. -/
abbrev scalar : Type := ℚ

/-- Two's-complement truncation of an integer to a `w`-bit signed bit-field:
the value stored when the C++ code assigns `x` to a `signed int : w`
bit-field. -/
def wrap (w : Nat) (x : Int) : Int :=
  (x + 2 ^ (w - 1)) % 2 ^ w - 2 ^ (w - 1)

/-- `fits w x` says the integer `x` is representable in a `w`-bit signed
bit-field, so storing it does not wrap. -/
def fits (w : Nat) (x : Int) : Prop :=
  -(2 ^ (w - 1)) ≤ x ∧ x < 2 ^ (w - 1)

instance (w : Nat) (x : Int) : Decidable (fits w x) := by
  unfold fits; infer_instance

-- Bit widths of the seven exponent bit-fields (`bitwidth.hpp`); the
-- `base_size` discriminator is `sizeof(uint32_t)`, which is 4.
namespace bitwidth

def base_size : Nat := 4

def metre : Nat := if base_size = 8 then 8 else 4

def second : Nat := if base_size = 8 then 8 else 4

def kilogram : Nat := if base_size = 8 then 6 else 3

def ampere : Nat := if base_size = 8 then 6 else 3

def candela : Nat := if base_size = 8 then 4 else 2

def kelvin : Nat := if base_size = 8 then 6 else 3

def mole : Nat := if base_size = 8 then 4 else 2

end bitwidth

/-- `unit_base` (`base.hpp`): the powers of the seven SI base units, each kept
in a signed bit-field of the width given by `bitwidth`. -/
structure unit_base where
  metre : Int
  second : Int
  kilogram : Int
  ampere : Int
  kelvin : Int
  mole : Int
  candela : Int
deriving DecidableEq

/-- The `unit_base(int, int, int, int, int, int, int)` constructor: assigning
each argument to its bit-field truncates it to the field's width. -/
def unit_base.mk' (metres seconds kilograms amperes kelvins moles candelas : Int) :
    unit_base :=
  ⟨wrap bitwidth.metre metres, wrap bitwidth.second seconds,
   wrap bitwidth.kilogram kilograms, wrap bitwidth.ampere amperes,
   wrap bitwidth.kelvin kelvins, wrap bitwidth.mole moles,
   wrap bitwidth.candela candelas⟩

/-- All seven stored exponents are in range for their bit-fields (true of any
`unit_base` the C++ code can actually hold). -/
def unit_base.inRange (a : unit_base) : Prop :=
  fits bitwidth.metre a.metre ∧ fits bitwidth.second a.second ∧
  fits bitwidth.kilogram a.kilogram ∧ fits bitwidth.ampere a.ampere ∧
  fits bitwidth.kelvin a.kelvin ∧ fits bitwidth.mole a.mole ∧
  fits bitwidth.candela a.candela

instance (a : unit_base) : Decidable a.inRange := by
  unfold unit_base.inRange; infer_instance

/-- `unit_base::operator*`: add the powers (then store, i.e. wrap). -/
def unit_base.mul (a b : unit_base) : unit_base :=
  unit_base.mk' (a.metre + b.metre) (a.second + b.second)
    (a.kilogram + b.kilogram) (a.ampere + b.ampere)
    (a.kelvin + b.kelvin) (a.mole + b.mole) (a.candela + b.candela)

/-- `unit_base::operator/`: subtract the powers (then store, i.e. wrap). -/
def unit_base.div (a b : unit_base) : unit_base :=
  unit_base.mk' (a.metre - b.metre) (a.second - b.second)
    (a.kilogram - b.kilogram) (a.ampere - b.ampere)
    (a.kelvin - b.kelvin) (a.mole - b.mole) (a.candela - b.candela)

/-- `unit_base::operator==`: exact equality of all seven exponents (the
source compares in the order metre, second, kilogram, ampere, candela,
kelvin, mole). -/
def unit_base.eqB (a b : unit_base) : Bool :=
  a.metre == b.metre && a.second == b.second && a.kilogram == b.kilogram &&
  a.ampere == b.ampere && a.candela == b.candela && a.kelvin == b.kelvin &&
  a.mole == b.mole

/-- `unit_base::operator!=`: disequality of some exponent (a genuine
negation of `eqB`, unlike the `unit` level). -/
def unit_base.neqB (a b : unit_base) : Bool :=
  a.metre != b.metre || a.second != b.second || a.kilogram != b.kilogram ||
  a.ampere != b.ampere || a.candela != b.candela || a.kelvin != b.kelvin ||
  a.mole != b.mole

/-- `unit_base::inv`: negate every exponent. -/
def unit_base.inv (a : unit_base) : unit_base :=
  unit_base.mk' (-a.metre) (-a.second) (-a.kilogram) (-a.ampere)
    (-a.kelvin) (-a.mole) (-a.candela)

/-- `unit_base::pow`: multiply every exponent by `power`. -/
def unit_base.pow (a : unit_base) (power : Int) : unit_base :=
  unit_base.mk' (a.metre * power) (a.second * power) (a.kilogram * power)
    (a.ampere * power) (a.kelvin * power) (a.mole * power) (a.candela * power)

/-- `unit_base::has_valid_root`: every exponent leaves remainder 0 under the
C++ `%` (truncated remainder, `Int.tmod`) by `power`.  `power = 0` is
undefined behaviour in C++ and excluded by hypothesis in the theorems. -/
def unit_base.has_valid_root (a : unit_base) (power : Int) : Bool :=
  a.metre.tmod power == 0 && a.second.tmod power == 0 &&
  a.kilogram.tmod power == 0 && a.ampere.tmod power == 0 &&
  a.candela.tmod power == 0 && a.kelvin.tmod power == 0 &&
  a.mole.tmod power == 0

/-- `unit_base::root`: if the root is valid, divide every exponent by `power`
(C++ `/` on `int` is truncated division, `Int.tdiv`); otherwise throw
`std::invalid_argument("Invalid root power")`. -/
def unit_base.root (a : unit_base) (power : Int) : Except String unit_base :=
  if a.has_valid_root power then
    Except.ok (unit_base.mk' (a.metre.tdiv power) (a.second.tdiv power)
      (a.kilogram.tdiv power) (a.ampere.tdiv power) (a.kelvin.tdiv power)
      (a.mole.tdiv power) (a.candela.tdiv power))
  else
    Except.error "Invalid root power"

/-- `unit_prefix` (`prefix.hpp`): a scalar multiplier and a display symbol.
The checked constructor rejects `multiplier ≤ 0`; all the operations below
preserve positivity, so their internal constructor calls never throw and the
operations are modelled as total functions. -/
structure unit_prefix where
  multiplier : scalar
  symbol : Char
deriving DecidableEq

/-- The checked `unit_prefix(mult, symbol)` constructor: throws
`std::invalid_argument` when the multiplier is not positive. -/
def unit_prefix.mkChecked (mult : scalar) (symbol : Char) :
    Except String unit_prefix :=
  if mult ≤ 0 then Except.error "unit_prefix multiplier must be positive"
  else Except.ok ⟨mult, symbol⟩

/-- `unit_prefix::operator*`: multiply the multipliers, keep the left
operand's symbol. -/
def unit_prefix.mul (a b : unit_prefix) : unit_prefix :=
  ⟨a.multiplier * b.multiplier, a.symbol⟩

/-- `unit_prefix::operator/`: divide the multipliers, keep the left
operand's symbol. -/
def unit_prefix.div (a b : unit_prefix) : unit_prefix :=
  ⟨a.multiplier / b.multiplier, a.symbol⟩

/-- `unit_prefix::operator==`: multiplier and symbol both equal. -/
def unit_prefix.eqB (a b : unit_prefix) : Bool :=
  a.multiplier == b.multiplier && a.symbol == b.symbol

/-- `unit_prefix::operator!=`: multiplier or symbol different. -/
def unit_prefix.neqB (a b : unit_prefix) : Bool :=
  a.multiplier != b.multiplier || a.symbol != b.symbol

/-- `unit_prefix::pow`: `std::pow(multiplier_, power)`, same symbol. -/
def unit_prefix.pow (a : unit_prefix) (power : Int) : unit_prefix :=
  ⟨a.multiplier ^ power, a.symbol⟩

/-- `unit_prefix::root`: the source computes
`std::pow(this->multiplier_, power)` — the multiplier raised to `power`
itself, NOT to `1/power` (contrast `sqrt`/`cbrt`, which use `1./2.` and
`1./3.`).  Always succeeds. -/
def unit_prefix.root (a : unit_prefix) (power : Int) : unit_prefix :=
  ⟨a.multiplier ^ power, a.symbol⟩

/-- `unit_prefix::inv`: reciprocal multiplier, same symbol. -/
def unit_prefix.inv (a : unit_prefix) : unit_prefix :=
  ⟨1 / a.multiplier, a.symbol⟩

/-- `unit` (`unit.hpp`): a `unit_base` plus a `unit_prefix`.  The source's
field `prefix_` is called `pfx` here. -/
structure unit where
  base : unit_base
  pfx : unit_prefix
deriving DecidableEq

/-- `unit::operator*`: multiply prefixes and bases componentwise. -/
def unit.mul (u v : unit) : unit :=
  ⟨unit_base.mul u.base v.base, unit_prefix.mul u.pfx v.pfx⟩

/-- `unit::operator/`: divide prefixes and bases componentwise. -/
def unit.div (u v : unit) : unit :=
  ⟨unit_base.div u.base v.base, unit_prefix.div u.pfx v.pfx⟩

/-- `unit::operator==`: if the bases differ, `false`; else compare
prefixes for equality. -/
def unit.eqB (u v : unit) : Bool :=
  if unit_base.neqB u.base v.base then false
  else unit_prefix.eqB u.pfx v.pfx

/-- `unit::operator!=`, transcribed verbatim from the source: if the bases
are EQUAL it returns `prefix_ == other.prefix_` (prefix EQUALITY, not
inequality), else `true`. -/
def unit.neqB (u v : unit) : Bool :=
  if unit_base.eqB u.base v.base then unit_prefix.eqB u.pfx v.pfx
  else true

/-- `unit::convertion_factor` (spelling as in the source): the ratio of the
prefix multipliers when the bases are equal, otherwise the signaling-NaN
sentinel, modelled as `none`.  It never throws. -/
def unit.convertion_factor (u other : unit) : Option scalar :=
  if unit_base.eqB u.base other.base then
    some (u.pfx.multiplier / other.pfx.multiplier)
  else none

/-- `unit::convert`: `value * convertion_factor(other)`; multiplication by
the NaN sentinel propagates it (`none`). -/
def unit.convert (u : unit) (value : scalar) (other : unit) : Option scalar :=
  Option.map (fun f => value * f) (unit.convertion_factor u other)

-- The SI constants from `types.hpp` used by the claims.
namespace SI

namespace basis

def default_type : unit_base := unit_base.mk' 0 0 0 0 0 0 0

def metre : unit_base := unit_base.mk' 1 0 0 0 0 0 0

def second : unit_base := unit_base.mk' 0 1 0 0 0 0 0

end basis

namespace prefixes

def default_type : unit_prefix := ⟨1, Char.ofNat 0⟩

def kilo : unit_prefix := ⟨1000, 'k'⟩

end prefixes

def unitless : unit := ⟨basis.default_type, prefixes.default_type⟩

def m : unit := ⟨basis.metre, prefixes.default_type⟩

def s : unit := ⟨basis.second, prefixes.default_type⟩

def km : unit := ⟨basis.metre, prefixes.kilo⟩

/-- `radians` (`types.hpp`) is constructed as `unit()`, the default unit:
zero base exponents and the default prefix — the very same `unit` value as
`unitless`. -/
def rad : unit := ⟨basis.default_type, prefixes.default_type⟩

end SI

end units

open units

/-- `measurement` (`measurement.hpp`): a scalar value tagged with a unit.
The source's fields are `value_` and `units_`. -/
structure measurement where
  value : scalar
  units : unit
deriving DecidableEq

/-- `measurement::value_as`: the value expressed in `desired_units` — the
stored value if the units are equal, else `convert` (which yields the NaN
sentinel `none` when the bases differ). -/
def measurement.value_as (m : measurement) (desired_units : unit) : Option scalar :=
  if unit.eqB m.units desired_units then some m.value
  else unit.convert m.units m.value desired_units

/-- `measurement::operator+`: throws on different bases, otherwise adds the
converted value of `b` and keeps `a`'s units.  After the base check the
conversion cannot be the NaN sentinel, so the `getD 0` default is
unreachable. -/
def measurement.addM (a b : measurement) : Except String measurement :=
  if unit_base.neqB a.units.base b.units.base then
    Except.error "Cannot sum measurements with different unit_base"
  else
    Except.ok ⟨a.value + (measurement.value_as b a.units).getD 0, a.units⟩

/-- `measurement::operator+=`: same base check; then, if `this->units_ !=
unitless` (the source's `unit::operator!=`), add the converted value keeping
`a`'s units, else add the raw value and adopt `b`'s units (the "bootstrap"
branch). -/
def measurement.addAssign (a b : measurement) : Except String measurement :=
  if unit_base.neqB a.units.base b.units.base then
    Except.error "Cannot add measurements with different unit_base"
  else if unit.neqB a.units SI.unitless then
    Except.ok ⟨a.value + (measurement.value_as b a.units).getD 0, a.units⟩
  else
    Except.ok ⟨a.value + b.value, b.units⟩

/-- `measurement::operator/(const scalar&)`, transcribed verbatim: the guard
tests `this->value_ == 0.0` — the measurement's OWN value — not the scalar
divisor.  (For a nonzero value and zero scalar the C++ computes `value/0.0 =
±inf`; `ℚ` division by zero returns 0 instead.  No theorem below depends on
that quotient, only on the error/success status.) -/
def measurement.divScalar (a : measurement) (scal : scalar) : Except String measurement :=
  if a.value = 0 then Except.error "Cannot divide a measurement by 0"
  else Except.ok ⟨a.value / scal, a.units⟩

/-- `measurement::operator/=(const scalar&)`: this one tests the scalar
divisor `scal == 0.0`. -/
def measurement.divScalarAssign (a : measurement) (scal : scalar) :
    Except String measurement :=
  if scal = 0 then Except.error "Cannot divide a measurement by 0"
  else Except.ok ⟨a.value / scal, a.units⟩

/-- `measurement::operator==`: `value_ == other.value_as(units_)`; a NaN
conversion (`none`) compares unequal to everything, hence `false`. -/
def measurement.eqB (a b : measurement) : Bool :=
  match measurement.value_as b a.units with
  | none => false
  | some v => a.value == v

/-- Result type for operations whose numeric result is irrational
(`std::sin`): a real-valued measurement. -/
structure measurementR where
  value : ℝ
  units : unit

/-- The free function `sin(const measurement&)`: throws when
`meas.units_ != rad` (the source's `unit::operator!=`), else returns the
unitless measurement `sin(value)`. -/
noncomputable def measurement.sin (m : measurement) : Except String measurementR :=
  if unit.neqB m.units SI.rad then
    Except.error "Cannot take the sine of a measurement that is not in radians"
  else Except.ok ⟨Real.sin (m.value : ℝ), SI.unitless⟩

/-- `umeasurement` (`umeasurement.hpp`): value, uncertainty and unit.  The
checked constructor (`mkU`) rejects a negative uncertainty. -/
structure umeasurement where
  value : scalar
  uncertainty : scalar
  units : unit
deriving DecidableEq

/-- The checked `umeasurement(value, uncertainty, units)` constructor:
throws when the uncertainty is negative. -/
def umeasurement.mkU (value uncertainty : scalar) (u : unit) :
    Except String umeasurement :=
  if uncertainty < 0 then
    Except.error "Cannot instantiate an umeasurement with a negative uncertainty"
  else Except.ok ⟨value, uncertainty, u⟩

/-- `umeasurement::simple_subtract`: base check, then the linear ("simple")
difference: value `v1 - c·v2`, uncertainty `u1 + u2·c`, keeping `a`'s units,
where `c` is the conversion factor from `b`'s units into `a`'s.  After the
base check the factor cannot be the NaN sentinel, so `getD 0` is
unreachable.  The result is materialised through the checked constructor. -/
def umeasurement.simple_subtract (a b : umeasurement) : Except String umeasurement :=
  if unit_base.neqB a.units.base b.units.base then
    Except.error "Cannot subtract umeasurements with different unit bases"
  else
    let cval := (unit.convertion_factor b.units a.units).getD 0
    umeasurement.mkU (a.value - cval * b.value)
      (a.uncertainty + b.uncertainty * cval) a.units

/-- `umeasurement::operator==(const measurement&)`: exact value equality
when the stored uncertainty is zero, otherwise interval containment of the
other value (converted into `this`'s units) in
`[value - uncertainty, value + uncertainty]`.  A NaN conversion makes every
branch `false`. -/
def umeasurement.eqUM (a : umeasurement) (other : measurement) : Bool :=
  match measurement.value_as other a.units with
  | none => false
  | some v =>
    if a.uncertainty == 0 then a.value == v
    else decide (a.value - a.uncertainty ≤ v) && decide (v ≤ a.value + a.uncertainty)

/-- `umeasurement::operator==(const umeasurement&)`:
`simple_subtract(other) == measurement(0.0, this->units_)` — the
umeasurement-vs-measurement equality applied to the simple difference and
the zero measurement. -/
def umeasurement.eqU (a b : umeasurement) : Except String Bool :=
  Except.map (fun d => umeasurement.eqUM d ⟨0, a.units⟩)
    (umeasurement.simple_subtract a b)

/-- `umeasurement::simple_product`: value `v1·v2`, linear relative
uncertainty `u1/|v1| + u2/|v2|` scaled by `|v1·v2|`, units multiplied;
materialised through the checked constructor. -/
def umeasurement.simple_product (a b : umeasurement) : Except String umeasurement :=
  let ntol := a.uncertainty / |a.value| + b.uncertainty / |b.value|
  let nval := a.value * b.value
  umeasurement.mkU nval (|nval| * ntol) (unit.mul a.units b.units)

/-- Real-valued result type for the root-sum-of-squares product, whose
uncertainty involves `std::sqrt`. -/
structure umeasurementR where
  value : ℝ
  uncertainty : ℝ
  units : unit

/-- `umeasurement::operator*(const umeasurement&)` (the statistical,
root-sum-of-squares product): `tval1 = u1/v1`, `tval2 = u2/v2`,
`nunc = sqrt(tval1² + tval2²)`, value `v1·v2`, uncertainty `|v1·v2|·nunc`,
units multiplied.  The constructor's negativity check cannot fire because
`|nval|·√(...) ≥ 0`, so the result is modelled directly. -/
noncomputable def umeasurement.mulRss (a b : umeasurement) : umeasurementR :=
  let tval1 : scalar := a.uncertainty / a.value
  let tval2 : scalar := b.uncertainty / b.value
  let nval : scalar := a.value * b.value
  ⟨(nval : ℝ), |(nval : ℝ)| * Real.sqrt ((tval1 : ℝ) ^ 2 + (tval2 : ℝ) ^ 2),
    unit.mul a.units b.units⟩

/-!
Helper lemmas about the embedding, followed by the claim theorems.
-/

namespace units

theorem wrap_modEq (w : Nat) (x : Int) : wrap w x ≡ x [ZMOD 2 ^ w] := by
  unfold wrap
  calc (x + 2 ^ (w - 1)) % 2 ^ w - 2 ^ (w - 1)
      ≡ (x + 2 ^ (w - 1)) - 2 ^ (w - 1) [ZMOD 2 ^ w] := (Int.mod_modEq _ _).sub_right _
    _ = x := by ring

theorem wrap_congr {w : Nat} {x y : Int} (h : x ≡ y [ZMOD 2 ^ w]) :
    wrap w x = wrap w y := by
  unfold wrap
  have h' : (x + 2 ^ (w - 1)) % 2 ^ w = (y + 2 ^ (w - 1)) % 2 ^ w := h.add_right _
  rw [h']

theorem wrap_eq_of_fits {w : Nat} {x : Int} (hw : 1 ≤ w) (h : fits w x) :
    wrap w x = x := by
  obtain ⟨h1, h2⟩ := h
  have hsplit : (2 : Int) ^ w = 2 ^ (w - 1) * 2 := by
    rw [← pow_succ]
    congr 1
    omega
  have hlo : (0 : Int) ≤ x + 2 ^ (w - 1) := by linarith
  have hhi : x + 2 ^ (w - 1) < 2 ^ w := by rw [hsplit]; linarith
  unfold wrap
  rw [Int.emod_eq_of_lt hlo hhi]
  ring

theorem fits_wrap (w : Nat) (hw : 1 ≤ w) (x : Int) : fits w (wrap w x) := by
  have hpos : (0 : Int) < 2 ^ w := by positivity
  have h1 : 0 ≤ (x + 2 ^ (w - 1)) % 2 ^ w := Int.emod_nonneg _ (by positivity)
  have h2 : (x + 2 ^ (w - 1)) % 2 ^ w < 2 ^ w := Int.emod_lt_of_pos _ hpos
  have hsplit : (2 : Int) ^ w = 2 ^ (w - 1) * 2 := by
    rw [← pow_succ]
    congr 1
    omega
  unfold wrap fits
  constructor
  · linarith
  · linarith [hsplit]

/-- Wrapping the difference of a wrapped sum recovers an in-range first
summand: the bit-field version of `(a + b) - b = a`. -/
theorem wrap_sub_wrap_add (w : Nat) (hw : 1 ≤ w) {a : Int} (b : Int)
    (ha : fits w a) : wrap w (wrap w (a + b) - b) = a := by
  have h1 : wrap w (wrap w (a + b) - b) = wrap w a := by
    apply wrap_congr
    calc wrap w (a + b) - b
        ≡ (a + b) - b [ZMOD 2 ^ w] := (wrap_modEq w (a + b)).sub_right b
      _ = a := by ring
  rw [h1, wrap_eq_of_fits hw ha]

/-- The bit-field version of `-(-a) = a` for an in-range `a`. -/
theorem wrap_neg_wrap_neg (w : Nat) (hw : 1 ≤ w) {a : Int}
    (ha : fits w a) : wrap w (-(wrap w (-a))) = a := by
  have h1 : wrap w (-(wrap w (-a))) = wrap w a := by
    apply wrap_congr
    calc -(wrap w (-a)) ≡ -(-a) [ZMOD 2 ^ w] := (wrap_modEq w (-a)).neg
      _ = a := by ring
  rw [h1, wrap_eq_of_fits hw ha]

theorem unit_base.eqB_iff (a b : unit_base) : unit_base.eqB a b = true ↔ a = b := by
  cases a
  cases b
  simp [unit_base.eqB, unit_base.mk.injEq]
  tauto

theorem unit_base.neqB_iff (a b : unit_base) : unit_base.neqB a b = true ↔ a ≠ b := by
  cases a
  cases b
  simp [unit_base.neqB, unit_base.mk.injEq]
  tauto

theorem unit_base.neqB_eq_false_iff (a b : unit_base) :
    unit_base.neqB a b = false ↔ a = b := by
  rw [Bool.eq_false_iff, Ne, unit_base.neqB_iff]
  exact not_not

/-- An exact quotient of an in-range value by a positive divisor is in
range. -/
theorem fits_exact_div {w : Nat} {a n k : Int} (hn : 0 < n) (hk : a = n * k)
    (h : fits w a) : fits w k := by
  obtain ⟨h1, h2⟩ := h
  have hpow : (0 : Int) < 2 ^ (w - 1) := by positivity
  constructor
  · rcases le_or_lt 0 k with hk0 | hk0
    · linarith
    · nlinarith
  · rcases le_or_lt 0 k with hk0 | hk0
    · nlinarith
    · linarith

/-- Storing the truncated quotient of an in-range exponent that is exactly
divisible by a positive root index, then multiplying back by the index,
recovers the exponent. -/
theorem root_field_exact {w : Nat} (hw : 1 ≤ w) {a n : Int} (hn : 0 < n)
    (hdvd : n ∣ a) (ha : fits w a) : wrap w (a.tdiv n) * n = a := by
  obtain ⟨k, hk⟩ := hdvd
  have htdiv : a.tdiv n = k := by
    rw [hk]
    exact Int.mul_tdiv_cancel_left k hn.ne'
  rw [htdiv, wrap_eq_of_fits hw (fits_exact_div hn hk ha), hk]
  ring

/-- The code's divisibility check `has_valid_root` holds exactly when every
exponent is divisible by `power`. -/
theorem unit_base.has_valid_root_iff (d : unit_base) (n : Int) :
    unit_base.has_valid_root d n = true ↔
      (n ∣ d.metre ∧ n ∣ d.second ∧ n ∣ d.kilogram ∧ n ∣ d.ampere ∧
       n ∣ d.kelvin ∧ n ∣ d.mole ∧ n ∣ d.candela) := by
  unfold unit_base.has_valid_root
  simp only [Bool.and_eq_true, beq_iff_eq, ← Int.dvd_iff_tmod_eq_zero]
  tauto

/-- `unit::operator==` is reflexive (unlike `operator!=`). -/
theorem unit.eqB_refl (u : unit) : unit.eqB u u = true := by
  unfold unit.eqB
  rw [(unit_base.neqB_eq_false_iff u.base u.base).mpr rfl]
  simp [ unit_prefix.eqB]

theorem unit.eqB_eq_false_of_base_ne {u v : unit} (h : u.base ≠ v.base) :
    unit.eqB u v = false := by
  unfold unit.eqB
  rw [(unit_base.neqB_iff u.base v.base).mpr h]
  rfl

end units

/-- Evaluating the umeasurement-vs-measurement equality of a difference
`⟨d, t, u⟩` against the zero measurement `⟨0, u⟩`: exact zero test when the
uncertainty `t` is zero, interval containment `|d| ≤ t` otherwise. -/
theorem umeasurement.eqUM_zero (d t : scalar) (u : unit) :
    umeasurement.eqUM ⟨d, t, u⟩ ⟨0, u⟩ =
      (if t = 0 then decide (d = 0) else decide (|d| ≤ t)) := by
  unfold umeasurement.eqUM measurement.value_as
  rw [if_pos (unit.eqB_refl u)]
  show (if (t == 0) = true then d == 0
    else decide (d - t ≤ 0) && decide (0 ≤ d + t)) = _
  by_cases h0 : t = 0
  · by_cases hd : d = 0 <;> simp [h0, hd]
  · have h0' : (t == 0) = false := by simp [h0]
    rw [h0', if_neg (by simp), if_neg h0]
    by_cases h1 : |d| ≤ t
    · obtain ⟨hl, hr⟩ := abs_le.mp h1
      rw [decide_eq_true h1, decide_eq_true (by linarith : d - t ≤ 0),
        decide_eq_true (by linarith : (0 : scalar) ≤ d + t), Bool.true_and]
    · rw [decide_eq_false h1]
      have hsplit : ¬ (d - t ≤ 0) ∨ ¬ ((0 : scalar) ≤ d + t) := by
        by_contra hcon
        push_neg at hcon
        exact h1 (abs_le.mpr ⟨by linarith [hcon.1, hcon.2], by linarith [hcon.1, hcon.2]⟩)
      rcases hsplit with h | h
      · rw [decide_eq_false h, Bool.false_and]
      · rw [decide_eq_false h, Bool.and_false]

/-- C1: the sine of a measurement.  The source intends `sin` to succeed
exactly on radian-united operands, but `unit::operator!=` returns
`prefix == prefix` when the bases are equal, so `meas.units_ != rad` is TRUE
for the radian unit itself and `sin(measurement(1.0, rad))` throws — the
very input the claim requires to succeed.  `sin(measurement(1.0, m))` also
throws (bases differ), as the claim says. -/
theorem C1_sin_throws_even_on_radians :
    measurement.sin ⟨1, SI.rad⟩ =
      Except.error "Cannot take the sine of a measurement that is not in radians" ∧
    measurement.sin ⟨1, SI.m⟩ =
      Except.error "Cannot take the sine of a measurement that is not in radians" := by
  exact ⟨rfl, rfl⟩

/-- C2: `unit::operator!=` is not the negation of `unit::operator==`: it is
reflexively TRUE (`u != u` holds for every unit), because with equal bases
it returns whether the prefixes are EQUAL; and with equal bases and
different prefixes it is `false`; with different bases it is `true`. -/
theorem C2_unit_neq_is_not_negated_eq :
    (∀ u : unit, unit.neqB u u = true) ∧
    (∀ u v : unit, u.base = v.base →
      unit.neqB u v = unit_prefix.eqB u.pfx v.pfx) ∧
    (∀ u v : unit, u.base ≠ v.base → unit.neqB u v = true) := by
  refine ⟨fun u => ?_, fun u v h => ?_, fun u v h => ?_⟩
  · unfold unit.neqB
    rw [if_pos ((unit_base.eqB_iff u.base u.base).mpr rfl)]
    simp [ unit_prefix.eqB]
  · unfold unit.neqB
    rw [if_pos ((unit_base.eqB_iff u.base v.base).mpr h)]
  · unfold unit.neqB
    rw [if_neg]
    intro heq
    exact h ((unit_base.eqB_iff u.base v.base).mp heq)

/-- C2 witness: `m != m` is `true`; `m != km` (equal bases, different
prefixes) is the prefix EQUALITY, which is `false`; `m != s` (different
bases) is `true`. -/
theorem C2_unit_neq_is_not_negated_eq_witness :
    unit.neqB SI.m SI.m = true ∧
    (unit.neqB SI.m SI.km = unit_prefix.eqB SI.m.pfx SI.km.pfx ∧
      unit_prefix.eqB SI.m.pfx SI.km.pfx = false) ∧
    unit.neqB SI.m SI.s = true :=
  ⟨C2_unit_neq_is_not_negated_eq.1 SI.m,
   ⟨C2_unit_neq_is_not_negated_eq.2.1 SI.m SI.km rfl, by decide⟩,
   C2_unit_neq_is_not_negated_eq.2.2 SI.m SI.s (by decide)⟩

/-- C3 counterexample: `Quantity(0.0, unitless) + Quantity(5.0, km)` does
not succeed with `Quantity(5.0, km)` — `operator+` first requires equal
dimension vectors (the unitless base is all-zero, km's has metre = 1), so
it throws `std::invalid_argument`. -/
theorem C3_bootstrap_add_counterexample :
    measurement.addM ⟨0, SI.unitless⟩ ⟨5, SI.km⟩ =
      Except.error "Cannot sum measurements with different unit_base" ∧
    (Except.error "Cannot sum measurements with different unit_base" :
      Except String measurement) ≠ Except.ok ⟨5, SI.km⟩ :=
  ⟨rfl, fun h => Except.noConfusion h⟩

/-- C3 amended: `Quantity(0.0, unitless) + Quantity(5.0, km)` raises
`InvalidArgument` (add requires equal dimension vectors), and a successful
`operator+` never adopts the right operand's unit: the result always keeps
the left operand's unit.  (Likewise `operator+=` throws on this input; its
unitless "bootstrap" branch sits behind the same base check.) -/
theorem C3_amended_add_keeps_left_unit :
    measurement.addM ⟨0, SI.unitless⟩ ⟨5, SI.km⟩ =
      Except.error "Cannot sum measurements with different unit_base" ∧
    measurement.addAssign ⟨0, SI.unitless⟩ ⟨5, SI.km⟩ =
      Except.error "Cannot add measurements with different unit_base" ∧
    (∀ a b r : measurement, measurement.addM a b = Except.ok r → r.units = a.units) := by
  refine ⟨rfl, rfl, fun a b r h => ?_⟩
  unfold measurement.addM at h
  split at h
  · exact Except.noConfusion h
  · cases h
    rfl

/-- C3 witness: a successful addition (`1 m + 2 km = 2001 m`) keeps the
left operand's unit. -/
theorem C3_amended_add_keeps_left_unit_witness :
    measurement.addM ⟨1, SI.m⟩ ⟨2, SI.km⟩ = Except.ok ⟨2001, SI.m⟩ ∧
    (⟨2001, SI.m⟩ : measurement).units = SI.m := by
  have h : measurement.addM ⟨1, SI.m⟩ ⟨2, SI.km⟩ = Except.ok ⟨2001, SI.m⟩ := by
    unfold measurement.addM measurement.value_as unit.convert unit.convertion_factor
    norm_num [unit_base.neqB, unit.eqB, unit_base.eqB, unit_prefix.eqB, SI.m, SI.km,
      SI.basis.metre, SI.prefixes.kilo, SI.prefixes.default_type, unit_base.mk', wrap]
  exact ⟨h, C3_amended_add_keeps_left_unit.2.2 ⟨1, SI.m⟩ ⟨2, SI.km⟩ ⟨2001, SI.m⟩ h⟩

/-- C4: `unit_prefix::root(power)` computes `std::pow(multiplier_, power)` —
the multiplier raised to `power`, not to `1/power` as the claim (and the
function's own name, doc comment, and its `sqrt`/`cbrt` siblings) intend:
`kilo.root(3)` yields multiplier `1000³ = 10⁹` instead of `1000^(1/3) = 10`.
The symbol is kept and no validity check is performed, as the claim says. -/
theorem C4_prefix_root_raises_to_power_not_inverse :
    ( unit_prefix.root SI.prefixes.kilo 3).multiplier = 1000000000 ∧
    ( unit_prefix.root SI.prefixes.kilo 3).symbol = 'k' ∧
    (1000000000 : scalar) ≠ 10 := by
  refine ⟨?_, rfl, by norm_num⟩
  show (1000 : scalar) ^ (3 : Int) = 1000000000
  norm_num

/-- C5: `measurement::operator/(const scalar&)` guards on the measurement's
OWN value, not the scalar divisor: `(5 m) / 0` succeeds (IEEE would give
`inf`), while `(0 m) / 2` throws "Cannot divide a measurement by 0" — the
exact opposite of the claim.  The compound `operator/=(const scalar&)`
checks the scalar, matching the claim, so the two operators disagree. -/
theorem C5_scalar_divide_checks_wrong_operand :
    measurement.divScalar ⟨0, SI.m⟩ 2 =
      Except.error "Cannot divide a measurement by 0" ∧
    measurement.divScalar ⟨5, SI.m⟩ 0 = Except.ok ⟨5 / 0, SI.m⟩ ∧
    measurement.divScalarAssign ⟨5, SI.m⟩ 0 =
      Except.error "Cannot divide a measurement by 0" ∧
    measurement.divScalarAssign ⟨0, SI.m⟩ 2 = Except.ok ⟨0, SI.m⟩ := by
  refine ⟨rfl, rfl, rfl, ?_⟩
  unfold measurement.divScalarAssign
  norm_num

/-- C6 counterexample: `(10 ± 2) m` and `(11 ± 1) m` have different values,
differing by less than the combined linear uncertainty `2 + 1 = 3`, and the
code declares them EQUAL — not unequal as the claim states — because
`simple_subtract(other) == measurement(0.0, units_)` is the interval
containment test of the umeasurement-vs-measurement equality, not an exact
zero test. -/
theorem C6_uncertain_equality_counterexample :
    umeasurement.eqU ⟨10, 2, SI.m⟩ ⟨11, 1, SI.m⟩ = Except.ok true ∧
    (10 : scalar) ≠ 11 ∧ |(10 : scalar) - 11| < 2 + 1 := by
  refine ⟨?_, by norm_num, by norm_num⟩
  unfold umeasurement.eqU umeasurement.simple_subtract umeasurement.mkU
    umeasurement.eqUM measurement.value_as unit.convertion_factor unit.eqB
  norm_num [unit_base.neqB, unit_base.eqB, unit_prefix.eqB, SI.m,
    SI.basis.metre, SI.prefixes.default_type, unit_base.mk', wrap, Except.map]

/-- C6 amended: equality between two uncertain quantities with compatible
bases (conversion factor `c` from the right unit into the left) holds
exactly when the simple/linear difference `d = v₁ - c·v₂` is zero, IF the
combined linear uncertainty `t = u₁ + u₂·c` is zero; otherwise it is the
interval test `|d| ≤ t` — an interval-style comparison, contrary to the
claim's "not an interval test". -/
theorem C6_amended_uncertain_equality_is_interval_test
    (a b : umeasurement)
    (hbase : a.units.base = b.units.base)
    (ha : 0 ≤ a.uncertainty) (hb : 0 ≤ b.uncertainty)
    (hpa : 0 < a.units.pfx.multiplier) (hpb : 0 < b.units.pfx.multiplier) :
    umeasurement.eqU a b =
      Except.ok
        (if a.uncertainty +
            b.uncertainty * (b.units.pfx.multiplier / a.units.pfx.multiplier) = 0
         then decide (a.value -
            (b.units.pfx.multiplier / a.units.pfx.multiplier) * b.value = 0)
         else decide (|a.value -
            (b.units.pfx.multiplier / a.units.pfx.multiplier) * b.value| ≤
            a.uncertainty +
            b.uncertainty * (b.units.pfx.multiplier / a.units.pfx.multiplier))) := by
  have hc : 0 < b.units.pfx.multiplier / a.units.pfx.multiplier := div_pos hpb hpa
  have hneq : unit_base.neqB a.units.base b.units.base = false :=
    (unit_base.neqB_eq_false_iff _ _).mpr hbase
  have hfac : unit.convertion_factor b.units a.units =
      some (b.units.pfx.multiplier / a.units.pfx.multiplier) := by
    unfold unit.convertion_factor
    rw [if_pos ((unit_base.eqB_iff _ _).mpr hbase.symm)]
  have ht : ¬ (a.uncertainty +
      b.uncertainty * (b.units.pfx.multiplier / a.units.pfx.multiplier) < 0) := by
    push_neg
    have := mul_nonneg hb hc.le
    linarith
  unfold umeasurement.eqU umeasurement.simple_subtract
  rw [if_neg (by simp [hneq] : ¬ (unit_base.neqB a.units.base b.units.base = true))]
  rw [hfac]
  simp only [Option.getD_some]
  unfold umeasurement.mkU
  rw [if_neg ht]
  simp only [Except.map]
  congr 1
  exact umeasurement.eqUM_zero _ _ _

/-- C7 counterexample: for `(10 ± 1) m * (2 ± 0.1) m` the simple (linear)
product has uncertainty `|20| · (1/10 + (1/10)/2) = 3`, not `2.1` as the
claim asserts (the claim's own formula `|20| · (1/10 + 0.1/2)` evaluates to
3). -/
theorem C7_simple_product_counterexample :
    umeasurement.simple_product ⟨10, 1, SI.m⟩ ⟨2, 1 / 10, SI.m⟩ =
      Except.ok ⟨20, 3, unit.mul SI.m SI.m⟩ ∧
    (3 : scalar) ≠ 21 / 10 := by
  refine ⟨?_, by norm_num⟩
  unfold umeasurement.simple_product umeasurement.mkU
  norm_num [abs_of_nonneg]

/-- C7 amended: for `(10 ± 1) m * (2 ± 0.1) m` the statistical
(root-sum-of-squares) product has value 20 and uncertainty
`|20|·√((1/10)² + (0.1/2)²) = √5 ≈ 2.236`, while the simple (linear)
product has the same value with uncertainty `|20|·(1/10 + 0.1/2) = 3`;
the two propagation methods give distinct results. -/
theorem C7_amended_statistical_vs_simple :
    (umeasurement.mulRss ⟨10, 1, SI.m⟩ ⟨2, 1 / 10, SI.m⟩).value = 20 ∧
    (umeasurement.mulRss ⟨10, 1, SI.m⟩ ⟨2, 1 / 10, SI.m⟩).uncertainty =
      Real.sqrt 5 ∧
    (umeasurement.mulRss ⟨10, 1, SI.m⟩ ⟨2, 1 / 10, SI.m⟩).units =
      unit.mul SI.m SI.m ∧
    umeasurement.simple_product ⟨10, 1, SI.m⟩ ⟨2, 1 / 10, SI.m⟩ =
      Except.ok ⟨20, 3, unit.mul SI.m SI.m⟩ ∧
    Real.sqrt 5 ≠ 3 := by
  refine ⟨?_, ?_, rfl, ?_, ?_⟩
  · unfold umeasurement.mulRss
    push_cast
    norm_num
  · unfold umeasurement.mulRss
    show |((10 * 2 : ℚ) : ℝ)| *
        Real.sqrt (((1 / 10 : ℚ) : ℝ) ^ 2 + (((1 / 10) / 2 : ℚ) : ℝ) ^ 2) =
      Real.sqrt 5
    push_cast
    rw [show ((1:ℝ)/10) ^ 2 + ((1:ℝ)/10/2) ^ 2 = 5 / 20 ^ 2 by norm_num,
      Real.sqrt_div (by norm_num : (0:ℝ) ≤ 5),
      Real.sqrt_sq (by norm_num : (0:ℝ) ≤ 20)]
    norm_num
    ring
  · unfold umeasurement.simple_product umeasurement.mkU
    norm_num [abs_of_nonneg]
  · intro h
    have hsq : Real.sqrt 5 ^ 2 = 5 := Real.sq_sqrt (by norm_num)
    rw [h] at hsq
    norm_num at hsq

/-- C8: for a nonzero root index `n` (`n = 0` is C++ undefined behaviour via
`% 0`), `unit_base::root` throws `InvalidArgument` exactly when some stored
exponent is not evenly divisible by `n`; on success (for positive `n`, with
in-range exponents) each result exponent times `n` recovers the original
exponent — exact division, never clamped or truncated — and the two
concrete cases of the claim hold:
`Dimension(1,0,…).root(2)` fails, `Dimension(2,0,…).root(2) = Dimension(1,0,…)`. -/
theorem C8_dimension_root_error_iff_nondivisible :
    (∀ (d : unit_base) (n : Int), n ≠ 0 →
      ((unit_base.root d n = Except.error "Invalid root power") ↔
        ¬ (n ∣ d.metre ∧ n ∣ d.second ∧ n ∣ d.kilogram ∧ n ∣ d.ampere ∧
           n ∣ d.kelvin ∧ n ∣ d.mole ∧ n ∣ d.candela)) ∧
      (0 < n → d.inRange → ∀ e : unit_base,
        unit_base.root d n = Except.ok e →
        e.metre * n = d.metre ∧ e.second * n = d.second ∧
        e.kilogram * n = d.kilogram ∧ e.ampere * n = d.ampere ∧
        e.kelvin * n = d.kelvin ∧ e.mole * n = d.mole ∧
        e.candela * n = d.candela)) ∧
    unit_base.root (unit_base.mk' 1 0 0 0 0 0 0) 2 =
      Except.error "Invalid root power" ∧
    unit_base.root (unit_base.mk' 2 0 0 0 0 0 0) 2 =
      Except.ok (unit_base.mk' 1 0 0 0 0 0 0) := by
  refine ⟨fun d n hn => ⟨⟨?_, ?_⟩, ?_⟩, rfl, rfl⟩
  · intro herr hdvd
    have hv : unit_base.has_valid_root d n = true :=
      (unit_base.has_valid_root_iff d n).mpr hdvd
    unfold unit_base.root at herr
    rw [if_pos hv] at herr
    exact Except.noConfusion herr
  · intro hnd
    have hv : unit_base.has_valid_root d n = false := by
      cases hv : unit_base.has_valid_root d n
      · rfl
      · exact absurd ((unit_base.has_valid_root_iff d n).mp hv) hnd
    unfold unit_base.root
    rw [hv]
    rfl
  · intro hpos hrange e hroot
    have hv : unit_base.has_valid_root d n = true := by
      cases hv : unit_base.has_valid_root d n
      · unfold unit_base.root at hroot
        rw [hv] at hroot
        exact Except.noConfusion hroot
      · rfl
    obtain ⟨d1, d2, d3, d4, d5, d6, d7⟩ := (unit_base.has_valid_root_iff d n).mp hv
    obtain ⟨r1, r2, r3, r4, r5, r6, r7⟩ := hrange
    unfold unit_base.root at hroot
    rw [if_pos hv] at hroot
    injection hroot with he
    subst he
    exact ⟨root_field_exact (by decide) hpos d1 r1,
      root_field_exact (by decide) hpos d2 r2,
      root_field_exact (by decide) hpos d3 r3,
      root_field_exact (by decide) hpos d4 r4,
      root_field_exact (by decide) hpos d5 r5,
      root_field_exact (by decide) hpos d6 r6,
      root_field_exact (by decide) hpos d7 r7⟩

/-- C8 witness: `Dimension(3,0,…).root(2)` fails (3 not divisible by 2),
and the successful `Dimension(2,0,…).root(2) = Dimension(1,0,…)` is exact:
the result's metre exponent times 2 gives back 2. -/
theorem C8_dimension_root_error_iff_nondivisible_witness :
    unit_base.root (unit_base.mk' 3 0 0 0 0 0 0) 2 =
      Except.error "Invalid root power" ∧
    (unit_base.mk' 1 0 0 0 0 0 0).metre * 2 = (unit_base.mk' 2 0 0 0 0 0 0).metre := by
  constructor
  · exact (C8_dimension_root_error_iff_nondivisible.1
      (unit_base.mk' 3 0 0 0 0 0 0) 2 (by norm_num)).1.mpr (by decide)
  · exact ((C8_dimension_root_error_iff_nondivisible.1
      (unit_base.mk' 2 0 0 0 0 0 0) 2 (by norm_num)).2 (by norm_num)
      (by decide) (unit_base.mk' 1 0 0 0 0 0 0) rfl).1

/-- C9 counterexample: the dimension with metre exponent −8 (representable
in the 4-bit field) has every exponent divisible by 2 — the code's own
`has_valid_root(2)` agrees — yet `pow(2)` wraps `−16` to `0` in the 4-bit
bit-field, so `root(2)` returns the all-zero dimension, not the original:
`A.pow(n).root(n) == A` fails under the claim's hypotheses. -/
theorem C9_pow_root_wrap_counterexample :
    ((2 : Int) ∣ (-8)) ∧
    unit_base.has_valid_root (unit_base.mk' (-8) 0 0 0 0 0 0) 2 = true ∧
    (unit_base.mk' (-8) 0 0 0 0 0 0).inRange ∧
    unit_base.root (unit_base.pow (unit_base.mk' (-8) 0 0 0 0 0 0) 2) 2 =
      Except.ok (unit_base.mk' 0 0 0 0 0 0 0) ∧
    unit_base.mk' 0 0 0 0 0 0 0 ≠ unit_base.mk' (-8) 0 0 0 0 0 0 := by
  exact ⟨by decide, by decide, by decide, rfl, by decide⟩

/-- C9 amended: on the bit-field representation, `(A*B)/B = A` and
`A.inv().inv() = A` hold for every representable `A` (and any `B`); and
`A.pow(n).root(n) = A` holds for `n ≠ 0` with every exponent of `A`
divisible by `n` PROVIDED additionally no product `exponent · n` overflows
its bit-field (the extra hypothesis the counterexample forces). -/
theorem C9_amended_dimension_closure :
    (∀ A B : unit_base, A.inRange →
      unit_base.div (unit_base.mul A B) B = A) ∧
    (∀ A : unit_base, A.inRange → unit_base.inv (unit_base.inv A) = A) ∧
    (∀ (A : unit_base) (n : Int), A.inRange → n ≠ 0 →
      (n ∣ A.metre ∧ n ∣ A.second ∧ n ∣ A.kilogram ∧ n ∣ A.ampere ∧
       n ∣ A.kelvin ∧ n ∣ A.mole ∧ n ∣ A.candela) →
      (fits bitwidth.metre (A.metre * n) ∧ fits bitwidth.second (A.second * n) ∧
       fits bitwidth.kilogram (A.kilogram * n) ∧ fits bitwidth.ampere (A.ampere * n) ∧
       fits bitwidth.kelvin (A.kelvin * n) ∧ fits bitwidth.mole (A.mole * n) ∧
       fits bitwidth.candela (A.candela * n)) →
      unit_base.root (unit_base.pow A n) n = Except.ok A) := by
  refine ⟨fun A B hA => ?_, fun A hA => ?_, fun A n hA hn hdvd hfit => ?_⟩
  · cases A with
    | mk a1 a2 a3 a4 a5 a6 a7 =>
    cases B with
    | mk b1 b2 b3 b4 b5 b6 b7 =>
    obtain ⟨r1, r2, r3, r4, r5, r6, r7⟩ := hA
    simp only [unit_base.mul, unit_base.div, unit_base.mk', unit_base.mk.injEq]
    exact ⟨wrap_sub_wrap_add _ (by decide) _ r1, wrap_sub_wrap_add _ (by decide) _ r2,
      wrap_sub_wrap_add _ (by decide) _ r3, wrap_sub_wrap_add _ (by decide) _ r4,
      wrap_sub_wrap_add _ (by decide) _ r5, wrap_sub_wrap_add _ (by decide) _ r6,
      wrap_sub_wrap_add _ (by decide) _ r7⟩
  · cases A with
    | mk a1 a2 a3 a4 a5 a6 a7 =>
    obtain ⟨r1, r2, r3, r4, r5, r6, r7⟩ := hA
    simp only [unit_base.inv, unit_base.mk', unit_base.mk.injEq]
    exact ⟨wrap_neg_wrap_neg _ (by decide) r1, wrap_neg_wrap_neg _ (by decide) r2,
      wrap_neg_wrap_neg _ (by decide) r3, wrap_neg_wrap_neg _ (by decide) r4,
      wrap_neg_wrap_neg _ (by decide) r5, wrap_neg_wrap_neg _ (by decide) r6,
      wrap_neg_wrap_neg _ (by decide) r7⟩
  · cases A with
    | mk a1 a2 a3 a4 a5 a6 a7 =>
    obtain ⟨d1, d2, d3, d4, d5, d6, d7⟩ := hdvd
    obtain ⟨f1, f2, f3, f4, f5, f6, f7⟩ := hfit
    obtain ⟨r1, r2, r3, r4, r5, r6, r7⟩ := hA
    have p1 : wrap bitwidth.metre (a1 * n) = a1 * n := wrap_eq_of_fits (by decide) f1
    have p2 : wrap bitwidth.second (a2 * n) = a2 * n := wrap_eq_of_fits (by decide) f2
    have p3 : wrap bitwidth.kilogram (a3 * n) = a3 * n := wrap_eq_of_fits (by decide) f3
    have p4 : wrap bitwidth.ampere (a4 * n) = a4 * n := wrap_eq_of_fits (by decide) f4
    have p5 : wrap bitwidth.kelvin (a5 * n) = a5 * n := wrap_eq_of_fits (by decide) f5
    have p6 : wrap bitwidth.mole (a6 * n) = a6 * n := wrap_eq_of_fits (by decide) f6
    have p7 : wrap bitwidth.candela (a7 * n) = a7 * n := wrap_eq_of_fits (by decide) f7
    have hv : unit_base.has_valid_root
        (unit_base.pow (unit_base.mk a1 a2 a3 a4 a5 a6 a7) n) n = true := by
      rw [unit_base.has_valid_root_iff]
      refine ⟨?_, ?_, ?_, ?_, ?_, ?_, ?_⟩ <;>
        simp only [unit_base.pow, unit_base.mk']
      · rw [p1]; exact dvd_mul_left n a1
      · rw [p2]; exact dvd_mul_left n a2
      · rw [p3]; exact dvd_mul_left n a3
      · rw [p4]; exact dvd_mul_left n a4
      · rw [p5]; exact dvd_mul_left n a5
      · rw [p6]; exact dvd_mul_left n a6
      · rw [p7]; exact dvd_mul_left n a7
    unfold unit_base.root
    rw [if_pos hv]
    congr 1
    simp only [unit_base.pow, unit_base.mk', unit_base.mk.injEq]
    refine ⟨?_, ?_, ?_, ?_, ?_, ?_, ?_⟩
    · rw [p1, Int.mul_tdiv_cancel _ hn, wrap_eq_of_fits (by decide) r1]
    · rw [p2, Int.mul_tdiv_cancel _ hn, wrap_eq_of_fits (by decide) r2]
    · rw [p3, Int.mul_tdiv_cancel _ hn, wrap_eq_of_fits (by decide) r3]
    · rw [p4, Int.mul_tdiv_cancel _ hn, wrap_eq_of_fits (by decide) r4]
    · rw [p5, Int.mul_tdiv_cancel _ hn, wrap_eq_of_fits (by decide) r5]
    · rw [p6, Int.mul_tdiv_cancel _ hn, wrap_eq_of_fits (by decide) r6]
    · rw [p7, Int.mul_tdiv_cancel _ hn, wrap_eq_of_fits (by decide) r7]

/-- C9 witness: concrete instances of the three amended identities. -/
theorem C9_amended_dimension_closure_witness :
    unit_base.div
      (unit_base.mul (unit_base.mk' 1 2 0 0 0 0 0) (unit_base.mk' 3 1 1 0 0 0 0))
      (unit_base.mk' 3 1 1 0 0 0 0) = unit_base.mk' 1 2 0 0 0 0 0 ∧
    unit_base.inv (unit_base.inv (unit_base.mk' 1 2 0 0 0 0 0)) =
      unit_base.mk' 1 2 0 0 0 0 0 ∧
    unit_base.root (unit_base.pow (unit_base.mk' 2 2 0 0 0 0 0) 2) 2 =
      Except.ok (unit_base.mk' 2 2 0 0 0 0 0) :=
  ⟨C9_amended_dimension_closure.1 _ _ (by decide),
   C9_amended_dimension_closure.2.1 _ (by decide),
   C9_amended_dimension_closure.2.2 (unit_base.mk' 2 2 0 0 0 0 0) 2 (by decide)
     (by norm_num) (by decide) (by decide)⟩

/-- C6 witness: `(10 ± 2) m` versus `(20 ± 1) m` — combined uncertainty 3,
difference 10, so the interval test yields `false`. -/
theorem C6_amended_uncertain_equality_is_interval_test_witness :
    umeasurement.eqU ⟨10, 2, SI.m⟩ ⟨20, 1, SI.m⟩ = Except.ok false := by
  have h := C6_amended_uncertain_equality_is_interval_test
    ⟨10, 2, SI.m⟩ ⟨20, 1, SI.m⟩ rfl (by norm_num) (by norm_num)
    (by norm_num [SI.m, SI.prefixes.default_type])
    (by norm_num [SI.m, SI.prefixes.default_type])
  rw [h]
  norm_num [SI.m, SI.prefixes.default_type]

/-- C10: `convertion_factor` never raises an error: with equal dimension
vectors it returns the ratio of the source prefix multiplier to the target
prefix multiplier, otherwise the NaN sentinel (`none`), which then
propagates through `convert` and makes the value comparison of
dimension-incompatible measurements `false` instead of throwing. -/
theorem C10_conversion_factor_nan_sentinel :
    (∀ u v : unit, u.base = v.base →
      unit.convertion_factor u v = some (u.pfx.multiplier / v.pfx.multiplier)) ∧
    (∀ u v : unit, u.base ≠ v.base → unit.convertion_factor u v = none) ∧
    (∀ (u : unit) (x : scalar) (v : unit), u.base ≠ v.base →
      unit.convert u x v = none) ∧
    (∀ a b : measurement, a.units.base ≠ b.units.base →
      measurement.eqB a b = false) := by
  have hfac_none : ∀ u v : unit, u.base ≠ v.base →
      unit.convertion_factor u v = none := by
    intro u v h
    unfold unit.convertion_factor
    rw [if_neg]
    intro hc
    exact h ((unit_base.eqB_iff _ _).mp hc)
  have hconv_none : ∀ (u : unit) (x : scalar) (v : unit), u.base ≠ v.base →
      unit.convert u x v = none := by
    intro u x v h
    unfold unit.convert
    rw [hfac_none u v h]
    rfl
  refine ⟨fun u v h => ?_, hfac_none, hconv_none, fun a b h => ?_⟩
  · unfold unit.convertion_factor
    rw [if_pos ((unit_base.eqB_iff _ _).mpr h)]
  · unfold measurement.eqB measurement.value_as
    rw [if_neg (by simp [unit.eqB_eq_false_of_base_ne (Ne.symm h)] :
      ¬ (unit.eqB b.units a.units = true))]
    rw [hconv_none b.units b.value a.units (Ne.symm h)]

/-- C10 witness: metre to kilometre gives factor `1/1000`; metre to second
gives the sentinel; converting through it stays `none`; and comparing
`1 m == 1 s` is `false`. -/
theorem C10_conversion_factor_nan_sentinel_witness :
    unit.convertion_factor SI.m SI.km = some (1 / 1000) ∧
    unit.convertion_factor SI.m SI.s = none ∧
    unit.convert SI.m 5 SI.s = none ∧
    measurement.eqB ⟨1, SI.m⟩ ⟨1, SI.s⟩ = false := by
  refine ⟨?_,
    C10_conversion_factor_nan_sentinel.2.1 SI.m SI.s (by decide),
    C10_conversion_factor_nan_sentinel.2.2.1 SI.m 5 SI.s (by decide),
    C10_conversion_factor_nan_sentinel.2.2.2 ⟨1, SI.m⟩ ⟨1, SI.s⟩ (by decide)⟩
  rw [C10_conversion_factor_nan_sentinel.1 SI.m SI.km rfl]
  norm_num [SI.m, SI.km, SI.prefixes.default_type, SI.prefixes.kilo]

end measurements
